import Mathlib

/-!
Verification of the `flhoutils` Go utility library against its specification.

The development shallowly embeds the repository's packages:
* `validator` (src/unnamed/part_003): the `Validator` map, `Check`, `AddError`,
  `Valid`, `PermittedValue`, `Unique`;
* `errors` (src/errors/errors.go) and the second catalog version
  (src/unnamed/part_001): the fixed catalog of HTTP error responses;
* `helpers`: `WriteJSON` and `ReadJSON`.  The `helpers` source file itself is
  not part of the provided sources (only `helpers_test.go` is), so those two
  functions are modelled from the specification (sections 4.2 and 4.3), as
  marked in their doc comments.

Go maps are modelled as association lists, Go's `http.ResponseWriter` as a
`Response` record, request bodies as `List Char`, and a `nil error` argument
as `Option.none` (calling `Error()` on it panics, modelled by an `Option`
result).
-/

/-- A JSON value: the payloads carried by envelopes and decoded from request
bodies.  Numbers are modelled as integers, which covers every numeral
appearing in the repository's data. -/
inductive JsonValue where
  | null : JsonValue
  | boolean : Bool → JsonValue
  | num : Int → JsonValue
  | str : String → JsonValue
  | arr : List JsonValue → JsonValue
  | obj : List (String × JsonValue) → JsonValue

/-- Escapes one character for inclusion in a JSON string literal. -/
def escapeChar (c : Char) : String :=
  if c = '"' then "\\\""
  else if c = '\\' then "\\\\"
  else if c = '\n' then "\\n"
  else if c = '\t' then "\\t"
  else if c = '\r' then "\\r"
  else String.singleton c

/-- Renders a string as a quoted JSON string literal. -/
def quoteStr (s : String) : String :=
  "\"" ++ String.join (s.toList.map escapeChar) ++ "\""

/-- Joins rendered pieces with commas, as inside a JSON array or object. -/
def joinComma : List String → String
  | [] => ""
  | [s] => s
  | s :: rest => s ++ "," ++ joinComma rest

mutual

/-- Serializes a `JsonValue` to compact JSON text (the model of `json.Marshal`
on the envelope; the spec treats whitespace and indentation as irrelevant). -/
def render : JsonValue → String
  | JsonValue.null => "null"
  | JsonValue.boolean b => if b then "true" else "false"
  | JsonValue.num n => toString n
  | JsonValue.str s => quoteStr s
  | JsonValue.arr xs => "[" ++ renderElems xs ++ "]"
  | JsonValue.obj fs => "\x7b" ++ renderFields fs ++ "\x7d"

/-- Renders the comma-separated elements of a JSON array. -/
def renderElems : List JsonValue → String
  | [] => ""
  | [x] => render x
  | x :: y :: rest => render x ++ "," ++ renderElems (y :: rest)

/-- Renders the comma-separated `"key":value` members of a JSON object. -/
def renderFields : List (String × JsonValue) → String
  | [] => ""
  | [(k, v)] => quoteStr k ++ ":" ++ render v
  | (k, v) :: p :: rest => quoteStr k ++ ":" ++ render v ++ "," ++ renderFields (p :: rest)

end

/-- An `Envelope` (src `helpers.Envelope`, Go `map[string]any`): the top-level
JSON object written by `WriteJSON`; in this repository it always holds exactly
one key, `"error"` or `"data"`. -/
def Envelope : Type := List (String × JsonValue)

/-- Looks a key up in an association list, returning the first match; the
model of Go map indexing. -/
def lookupKey (k : String) : List (String × String) → Option String
  | [] => none
  | (k', v) :: rest => if k' = k then some v else lookupKey k rest

/-- Sets a header key to a value, replacing any existing entry: the model of
`w.Header().Set` / Go map assignment on the header map. -/
def setHeader (hs : List (String × String)) (k v : String) : List (String × String) :=
  hs.filter (fun p => decide (p.1 ≠ k)) ++ [(k, v)]

/-- Applies every supplied `(key, value)` pair to the header map in order, the
model of the `for key, value := range headers` loop. -/
def applyHeaders (hs : List (String × String)) (supplied : List (String × String)) :
    List (String × String) :=
  supplied.foldl (fun acc p => setHeader acc p.1 p.2) hs

/-- The observable outcome of one response: the status code written, the final
header map and the raw body bytes. -/
structure Response where
  status : Nat
  headers : List (String × String)
  body : String
deriving DecidableEq

/-- Reads a header value from a finished response. -/
def getHeader (r : Response) (k : String) : Option String :=
  lookupKey k r.headers

/-- The last value assigned to a key by a sequence of Go map assignments. -/
def lastValue (k : String) : List (String × String) → Option String
  | [] => none
  | (k', v) :: rest =>
    match lastValue k rest with
    | some v' => some v'
    | none => if k' = k then some v else none

/-- Modelled from the spec (section 4.2): `helpers.WriteJSON` with the response
writer's pre-existing header map `init` (the file `helpers.go` is not among the
provided sources; only its tests are).  It serializes the envelope, appends a
single trailing newline, applies every supplied header pair, then sets
`Content-Type: application/json`, and writes the status and body. -/
def WriteJSONWith (init : List (String × String)) (status : Nat) (data : Envelope)
    (headers : List (String × String)) : Response :=
  { status := status
    headers := setHeader (applyHeaders init headers) "Content-Type" "application/json"
    body := render (JsonValue.obj data) ++ "\n" }

/-- Modelled from the spec (section 4.2): `helpers.WriteJSON` on a fresh
response writer, whose header map starts empty. -/
def WriteJSON (status : Nat) (data : Envelope) (headers : List (String × String)) : Response :=
  WriteJSONWith [] status data headers

namespace ErrorsGo

/-- The generic error writer of src/errors/errors.go: wraps the message in an
envelope under the single key `"error"` and delegates to `WriteJSON` with no
extra headers, on a writer whose header map already holds `init`. -/
def ErrorResponseWith (init : List (String × String)) (status : Nat)
    (message : JsonValue) : Response :=
  WriteJSONWith init status [("error", message)] []

/-- Embeds `ErrorResponse` of src/errors/errors.go (fresh response writer). -/
def ErrorResponse (status : Nat) (message : JsonValue) : Response :=
  ErrorResponseWith [] status message

/-- Embeds `ServerErrorResponse` of src/errors/errors.go.  The Go code builds
its message with an unconditional `err.Error()` call, which panics when `err`
is `nil`; the panic is modelled by the `none` result. -/
def ServerErrorResponse (err : Option String) : Option Response :=
  match err with
  | none => none
  | some e =>
    some (ErrorResponse 500
      (JsonValue.str
        ("The server encountered a problem and could not process your request: " ++ e)))

/-- Embeds `NotFoundResponse` of src/errors/errors.go. -/
def NotFoundResponse : Response :=
  ErrorResponse 404 (JsonValue.str "The requested resource could not be found")

/-- Embeds `MethodNotAllowedResponse` of src/errors/errors.go; `method` is the
request's HTTP method. -/
def MethodNotAllowedResponse (method : String) : Response :=
  ErrorResponse 405 (JsonValue.str ("The " ++ method ++ " method is not supported for this resource"))

/-- Embeds `BadRequestResponse` of src/errors/errors.go; `err` is the text of
the (non-nil) error argument. -/
def BadRequestResponse (err : String) : Response :=
  ErrorResponse 400 (JsonValue.str err)

/-- Embeds `FailedValidationResponse` of src/errors/errors.go: the payload is
the validator's field-to-message map itself, not a string. -/
def FailedValidationResponse (errs : List (String × String)) : Response :=
  ErrorResponse 422 (JsonValue.obj (errs.map (fun p => (p.1, JsonValue.str p.2))))

/-- Embeds `EditConflictResponse` of src/errors/errors.go. -/
def EditConflictResponse : Response :=
  ErrorResponse 409 (JsonValue.str "Unable to update the record, please try again")

/-- Embeds `RateLimitExceededResponse` of src/errors/errors.go. -/
def RateLimitExceededResponse : Response :=
  ErrorResponse 429 (JsonValue.str "Rate limit exceeded")

/-- Embeds `InvalidCredentialsResponse` of src/errors/errors.go. -/
def InvalidCredentialsResponse : Response :=
  ErrorResponse 401 (JsonValue.str "Invalid authentication credentials")

/-- Embeds `InvalidAuthenticationTokenResponse` of src/errors/errors.go: it
first sets `WWW-Authenticate: Bearer` on the response writer, then writes the
401 error envelope. -/
def InvalidAuthenticationTokenResponse : Response :=
  ErrorResponseWith (setHeader [] "WWW-Authenticate" "Bearer") 401
    (JsonValue.str "Invalid or missing authentication token")

/-- Embeds `AuthenticationRequiredResponse` of src/errors/errors.go. -/
def AuthenticationRequiredResponse : Response :=
  ErrorResponse 401 (JsonValue.str "You must be authenticated to access this resource")

/-- Embeds `InactiveAccountResponse` of src/errors/errors.go. -/
def InactiveAccountResponse : Response :=
  ErrorResponse 403 (JsonValue.str "Your user account must be activated to access this resource")

end ErrorsGo

namespace Part001

/-- The generic error writer of src/unnamed/part_001 (identical in behavior to
the one in src/errors/errors.go). -/
def ErrorResponse (status : Nat) (message : JsonValue) : Response :=
  WriteJSONWith [] status [("error", message)] []

/-- Embeds `ServerErrorResponse` of src/unnamed/part_001: a fixed message that
never touches the error argument, so a `nil` error is harmless. -/
def ServerErrorResponse (err : Option String) : Response :=
  ErrorResponse 500
    (JsonValue.str "The server encountered a problem and could not process your request")

/-- Embeds `NotFoundResponse` of src/unnamed/part_001. -/
def NotFoundResponse : Response :=
  ErrorResponse 404 (JsonValue.str "the requested resource could not be found")

/-- Embeds `MethodNotAllowedResponse` of src/unnamed/part_001. -/
def MethodNotAllowedResponse (method : String) : Response :=
  ErrorResponse 405 (JsonValue.str ("the " ++ method ++ " method is not supported for this resource"))

/-- Embeds `BadRequestResponse` of src/unnamed/part_001. -/
def BadRequestResponse (err : String) : Response :=
  ErrorResponse 400 (JsonValue.str err)

/-- Embeds `FailedValidationResponse` of src/unnamed/part_001. -/
def FailedValidationResponse (errs : List (String × String)) : Response :=
  ErrorResponse 422 (JsonValue.obj (errs.map (fun p => (p.1, JsonValue.str p.2))))

/-- Embeds `EditConflictResponse` of src/unnamed/part_001. -/
def EditConflictResponse : Response :=
  ErrorResponse 409 (JsonValue.str "unable to update the record, please try again")

/-- Embeds `RateLimitExceededResponse` of src/unnamed/part_001. -/
def RateLimitExceededResponse : Response :=
  ErrorResponse 429 (JsonValue.str "rate limit exceeded")

/-- Embeds `InvalidCredentialsResponse` of src/unnamed/part_001. -/
def InvalidCredentialsResponse : Response :=
  ErrorResponse 401 (JsonValue.str "invalid authentication credentials")

/-- Embeds `InvalidAuthenticationTokenResponse` of src/unnamed/part_001. -/
def InvalidAuthenticationTokenResponse : Response :=
  WriteJSONWith (setHeader [] "WWW-Authenticate" "Bearer") 401
    [("error", JsonValue.str "invalid or missing authentication token")] []

/-- Embeds `AuthenticationRequiredResponse` of src/unnamed/part_001. -/
def AuthenticationRequiredResponse : Response :=
  ErrorResponse 401 (JsonValue.str "you must be authenticated to access this resource")

/-- Embeds `InactiveAccountResponse` of src/unnamed/part_001. -/
def InactiveAccountResponse : Response :=
  ErrorResponse 403 (JsonValue.str "your user account must be activated to access this resource")

end Part001

namespace validator

/-- Embeds the `Validator` struct of the validator package
(src/unnamed/part_003): a Go map from field name to error message, modelled as
an association list without duplicate keys. -/
structure Validator where
  Errors : List (String × String)
deriving DecidableEq

/-- Embeds `validator.New`: a validator with an empty error map. -/
def Validator.New : Validator := ⟨[]⟩

/-- Embeds `Validator.Valid`: true iff the error map is empty. -/
def Validator.Valid (v : Validator) : Bool := v.Errors.isEmpty

/-- Embeds `Validator.AddError`: records the message under the key only when
the key has no entry yet. -/
def Validator.AddError (v : Validator) (key message : String) : Validator :=
  match lookupKey key v.Errors with
  | some _ => v
  | none => ⟨v.Errors ++ [(key, message)]⟩

/-- Embeds `Validator.Check`: records the message when the condition is
false. -/
def Validator.Check (v : Validator) (ok : Bool) (key message : String) : Validator :=
  if ok then v else v.AddError key message

/-- Embeds `validator.PermittedValue` (a wrapper around `slices.Contains`):
true iff the value occurs among the permitted values. -/
def PermittedValue {α : Type} [DecidableEq α] (value : α) (permittedValues : List α) : Bool :=
  match permittedValues with
  | [] => false
  | x :: xs => if x = value then true else PermittedValue value xs

/-- Inserts a value into the list of keys seen so far if it is not already
present: the model of `uniqueValues[value] = true` on a Go map. -/
def insertKey {α : Type} [DecidableEq α] (s : List α) (v : α) : List α :=
  if v ∈ s then s else s ++ [v]

/-- Embeds `validator.Unique`: builds the set of distinct values and compares
its size with the input length. -/
def Unique {α : Type} [DecidableEq α] (values : List α) : Bool :=
  values.length == (values.foldl insertKey []).length

end validator

/-- True on the four JSON whitespace characters. -/
def isWs (c : Char) : Bool :=
  c == ' ' || c == '\n' || c == '\t' || c == '\r'

/-- Skips leading whitespace, advancing the character position. -/
def skipWs : List Char → Nat → List Char × Nat
  | [], pos => ([], pos)
  | c :: cs, pos => if isWs c then skipWs cs (pos + 1) else (c :: cs, pos)

/-- Result of scanning the body of a JSON string literal (after the opening
quote): the decoded string with the rest of the input, or an unexpected end of
input before the closing quote. -/
inductive StrRes where
  | ok (s : String) (rest : List Char) (pos : Nat)
  | eof

/-- Maps an escape character to the character it denotes. -/
def unescape (c : Char) : Char :=
  if c == 'n' then '\n' else if c == 't' then '\t' else if c == 'r' then '\r' else c

/-- Scans the body of a JSON string literal up to the closing quote,
processing backslash escapes. -/
def scanStr : List Char → Nat → List Char → StrRes
  | [], _, _ => StrRes.eof
  | '"' :: cs, pos, acc => StrRes.ok (String.mk acc.reverse) cs (pos + 1)
  | '\\' :: [], _, _ => StrRes.eof
  | '\\' :: c :: cs, pos, acc => scanStr cs (pos + 2) (unescape c :: acc)
  | c :: cs, pos, acc => scanStr cs (pos + 1) (c :: acc)

/-- Scans a run of decimal digits, accumulating their value. -/
def scanDigits : List Char → Nat → Nat → Nat × List Char × Nat
  | [], pos, acc => (acc, [], pos)
  | c :: cs, pos, acc =>
    if c.isDigit then scanDigits cs (pos + 1) (acc * 10 + (c.toNat - 48))
    else (acc, c :: cs, pos)

/-- Result of consuming the tail of a keyword literal (`true`, `false`,
`null`). -/
inductive LitRes where
  | ok (rest : List Char) (pos : Nat)
  | fail (off : Nat)
  | eof

/-- Consumes an expected sequence of characters. -/
def eatLit : List Char → List Char → Nat → LitRes
  | [], s, pos => LitRes.ok s pos
  | _ :: _, [], _ => LitRes.eof
  | e :: es, c :: cs, pos => if c == e then eatLit es cs (pos + 1) else LitRes.fail (pos + 1)

/-- Outcome of parsing one JSON value: the value with the unconsumed rest, a
syntax error at a character offset, or an unexpected end of input mid-value. -/
inductive PRes where
  | ok (v : JsonValue) (rest : List Char) (pos : Nat)
  | fail (off : Nat)
  | eof

/-- The pending work of the recursive descent parser: a value, the members of
an object being read, or the elements of an array being read. -/
inductive PTask where
  | value (s : List Char) (pos : Nat)
  | members (s : List Char) (pos : Nat) (acc : List (String × JsonValue))
  | elems (s : List Char) (pos : Nat) (acc : List JsonValue)

/-- The recursive descent JSON parser, fuelled so that recursion is structural;
`parseTop` supplies enough fuel for any input. -/
def parseGo : Nat → PTask → PRes
  | 0, _ => PRes.eof
  | fuel + 1, PTask.value s pos =>
    match skipWs s pos with
    | ([], _) => PRes.eof
    | (c :: cs, pos) =>
      if c == '"' then
        match scanStr cs (pos + 1) [] with
        | StrRes.ok str rest p => PRes.ok (JsonValue.str str) rest p
        | StrRes.eof => PRes.eof
      else if c == '\x7b' then parseGo fuel (PTask.members cs (pos + 1) [])
      else if c == '[' then parseGo fuel (PTask.elems cs (pos + 1) [])
      else if c == 't' then
        match eatLit ['r', 'u', 'e'] cs (pos + 1) with
        | LitRes.ok rest p => PRes.ok (JsonValue.boolean true) rest p
        | LitRes.fail o => PRes.fail o
        | LitRes.eof => PRes.eof
      else if c == 'f' then
        match eatLit ['a', 'l', 's', 'e'] cs (pos + 1) with
        | LitRes.ok rest p => PRes.ok (JsonValue.boolean false) rest p
        | LitRes.fail o => PRes.fail o
        | LitRes.eof => PRes.eof
      else if c == 'n' then
        match eatLit ['u', 'l', 'l'] cs (pos + 1) with
        | LitRes.ok rest p => PRes.ok JsonValue.null rest p
        | LitRes.fail o => PRes.fail o
        | LitRes.eof => PRes.eof
      else if c == '-' then
        match cs with
        | [] => PRes.eof
        | d :: ds =>
          if d.isDigit then
            let r := scanDigits ds (pos + 2) (d.toNat - 48)
            PRes.ok (JsonValue.num (-(Int.ofNat r.1))) r.2.1 r.2.2
          else PRes.fail (pos + 2)
      else if c.isDigit then
        let r := scanDigits cs (pos + 1) (c.toNat - 48)
        PRes.ok (JsonValue.num (Int.ofNat r.1)) r.2.1 r.2.2
      else PRes.fail (pos + 1)
  | fuel + 1, PTask.members s pos acc =>
    match skipWs s pos with
    | ([], _) => PRes.eof
    | (c :: cs, pos) =>
      if c == '\x7d' && acc.isEmpty then PRes.ok (JsonValue.obj []) cs (pos + 1)
      else if c == '"' then
        match scanStr cs (pos + 1) [] with
        | StrRes.eof => PRes.eof
        | StrRes.ok key rest p =>
          match skipWs rest p with
          | ([], _) => PRes.eof
          | (c2 :: cs2, p2) =>
            if c2 == ':' then
              match parseGo fuel (PTask.value cs2 (p2 + 1)) with
              | PRes.ok v rest2 p3 =>
                (match skipWs rest2 p3 with
                 | ([], _) => PRes.eof
                 | (c3 :: cs3, p4) =>
                   if c3 == ',' then parseGo fuel (PTask.members cs3 (p4 + 1) (acc ++ [(key, v)]))
                   else if c3 == '\x7d' then PRes.ok (JsonValue.obj (acc ++ [(key, v)])) cs3 (p4 + 1)
                   else PRes.fail (p4 + 1))
              | e => e
            else PRes.fail (p2 + 1)
      else PRes.fail (pos + 1)
  | fuel + 1, PTask.elems s pos acc =>
    match skipWs s pos with
    | ([], _) => PRes.eof
    | (c :: cs, pos) =>
      if c == ']' && acc.isEmpty then PRes.ok (JsonValue.arr []) cs (pos + 1)
      else
        match parseGo fuel (PTask.value (c :: cs) pos) with
        | PRes.ok v rest p =>
          (match skipWs rest p with
           | ([], _) => PRes.eof
           | (c2 :: cs2, p2) =>
             if c2 == ',' then parseGo fuel (PTask.elems cs2 (p2 + 1) (acc ++ [v]))
             else if c2 == ']' then PRes.ok (JsonValue.arr (acc ++ [v])) cs2 (p2 + 1)
             else PRes.fail (p2 + 1))
        | e => e

/-- Outcome of decoding the first JSON value of a request body:
`eofEmpty` is Go's `io.EOF` (nothing but whitespace before any value) and
`eofMid` is `io.ErrUnexpectedEOF` (the input stops mid-value). -/
inductive TopRes where
  | ok (v : JsonValue) (rest : List Char) (pos : Nat)
  | fail (off : Nat)
  | eofEmpty
  | eofMid

/-- Decodes one JSON value from the start of the stream, distinguishing an
empty stream from one that ends mid-value. -/
def parseTop (s : List Char) : TopRes :=
  match skipWs s 0 with
  | ([], _) => TopRes.eofEmpty
  | (c :: cs, pos) =>
    match parseGo (2 * (c :: cs).length + 2) (PTask.value (c :: cs) pos) with
    | PRes.ok v rest p => TopRes.ok v rest p
    | PRes.fail o => TopRes.fail o
    | PRes.eof => TopRes.eofMid

/-- The JSON type a destination field expects (the repository's destinations
only hold string and integer fields). -/
inductive JsonType where
  | str
  | num
deriving DecidableEq

/-- True when a decoded value matches the field's expected type. -/
def typeMatches (t : JsonType) (v : JsonValue) : Bool :=
  match t, v with
  | JsonType.str, JsonValue.str _ => true
  | JsonType.num, JsonValue.num _ => true
  | _, _ => false

/-- A strict-decoding failure: a key with no destination field, or a field
whose value has the wrong JSON type. -/
inductive Violation where
  | unknownKey (k : String)
  | typeMismatch (k : String)
deriving DecidableEq

/-- Looks up a field in the destination schema. -/
def schemaLookup (k : String) : List (String × JsonType) → Option JsonType
  | [] => none
  | (k', t) :: rest => if k' = k then some t else schemaLookup k rest

/-- Finds the first strict-decoding violation among an object's members, in
input order, as Go's streaming decoder with `DisallowUnknownFields` does. -/
def firstViolation (schema : List (String × JsonType)) :
    List (String × JsonValue) → Option Violation
  | [] => none
  | (k, v) :: rest =>
    match schemaLookup k schema with
    | none => some (Violation.unknownKey k)
    | some t => if typeMatches t v then firstViolation schema rest else some (Violation.typeMismatch k)

/-- The oversized-body message, naming the configured byte limit. -/
def tooLargeMsg (limit : Nat) : String :=
  "body must not be larger than " ++ toString limit ++ " bytes"

/-- Renders a strict-decoding violation as its classified message. -/
def violationMsg : Violation → String
  | Violation.unknownKey k => "body contains unknown key \"" ++ k ++ "\""
  | Violation.typeMismatch k => "body contains incorrect JSON type for field \"" ++ k ++ "\""

/-- Checks the decoded top-level value against the destination schema: the
destination is a struct, so a non-object value (other than `null`, which Go
decodes as a no-op) is an incorrect JSON type at the current offset. -/
def checkDecode (schema : List (String × JsonType)) (v : JsonValue) (pos : Nat) : Option String :=
  match v with
  | JsonValue.obj fields => (firstViolation schema fields).map violationMsg
  | JsonValue.null => none
  | _ => some ("body contains incorrect JSON type (at character " ++ toString pos ++ ")")

/-- The default request body byte limit of `ReadJSON`. -/
def MaxBytes : Nat := 1048576

/-- Modelled from the spec (section 4.3): `helpers.ReadJSON` with an explicit
byte limit (the file `helpers.go` is not among the provided sources; only its
tests are).  The limited reader exposes at most `limit` bytes of the body; a
decode that is still incomplete when the limit cuts the stream classifies as
the oversized-body failure; otherwise the decode failure of the first value is
classified per the fixed taxonomy, then a second read must find pure end of
stream or the call fails with the single-value message. -/
def ReadJSONLimit (schema : List (String × JsonType)) (limit : Nat) (body : List Char) :
    Except String Unit :=
  match parseTop (body.take limit) with
  | TopRes.eofEmpty =>
    if body.length ≤ limit then Except.error "body must not be empty"
    else Except.error (tooLargeMsg limit)
  | TopRes.eofMid =>
    if body.length ≤ limit then Except.error "body contains badly-formed JSON"
    else Except.error (tooLargeMsg limit)
  | TopRes.fail off =>
    Except.error ("body contains badly-formed JSON (at character " ++ toString off ++ ")")
  | TopRes.ok v rest pos =>
    match checkDecode schema v pos with
    | some msg => Except.error msg
    | none =>
      if (skipWs rest pos).1 = [] ∧ body.length ≤ limit then Except.ok ()
      else Except.error "body must only contain a single JSON value"

/-- Modelled from the spec (section 4.3): `helpers.ReadJSON`, which uses the
default 1,048,576-byte limit. -/
def ReadJSON (schema : List (String × JsonType)) (body : List Char) : Except String Unit :=
  ReadJSONLimit schema MaxBytes body

/-- The response body is a JSON object whose only top-level key is `"error"`,
followed by one trailing newline. -/
def isErrorEnvelope (r : Response) : Prop :=
  ∃ m, r.body = render (JsonValue.obj [("error", m)]) ++ "\n"

/-- True when decoding the first value consumed the visible stream without
completing: the decoder was still waiting for input when the stream ended
(Go's `io.EOF` or `io.ErrUnexpectedEOF` on the limited reader). -/
def incompleteParse : TopRes → Bool
  | TopRes.eofEmpty => true
  | TopRes.eofMid => true
  | _ => false

namespace validator

/-- Membership characterizes `PermittedValue`. -/
theorem permittedValue_iff {α : Type} [DecidableEq α] (value : α) (l : List α) :
    PermittedValue value l = true ↔ value ∈ l := by
  induction l with
  | nil => simp [PermittedValue]
  | cons x xs ih =>
    by_cases h : x = value
    · subst h
      simp [PermittedValue]
    · simp [PermittedValue, h, ih]
      intro hv
      exact (h hv.symm).elim

/-- Folding `insertKey` grows the accumulator by at most the input length. -/
theorem length_foldl_insertKey_le {α : Type} [DecidableEq α] (l : List α) (s : List α) :
    (l.foldl insertKey s).length ≤ s.length + l.length := by
  induction l generalizing s with
  | nil => simp
  | cons a t ih =>
    have h := ih (insertKey s a)
    simp only [List.foldl_cons]
    refine h.trans ?_
    unfold insertKey
    split <;> simp <;> omega

/-- Folding `insertKey` reaches the maximal size exactly when the input has no
duplicates and is disjoint from the accumulator. -/
theorem length_foldl_insertKey_eq_iff {α : Type} [DecidableEq α] (l : List α) (s : List α) :
    (l.foldl insertKey s).length = s.length + l.length ↔ l.Nodup ∧ ∀ x ∈ l, x ∉ s := by
  induction l generalizing s with
  | nil => simp
  | cons a t ih =>
    simp only [List.foldl_cons]
    by_cases ha : a ∈ s
    · have hins : insertKey s a = s := by simp [insertKey, ha]
      rw [hins]
      constructor
      · intro h
        have hle := length_foldl_insertKey_le t s
        simp [List.length_cons] at h
        omega
      · rintro ⟨-, hnotin⟩
        exact absurd ha (hnotin a (by simp))
    · have hins : insertKey s a = s ++ [a] := by simp [insertKey, ha]
      rw [hins]
      have key := ih (s ++ [a])
      constructor
      · intro h
        have h' : (t.foldl insertKey (s ++ [a])).length = (s ++ [a]).length + t.length := by
          simp only [List.length_append, List.length_cons, List.length_nil] at h ⊢
          omega
        obtain ⟨hnd, hdisj⟩ := key.mp h'
        refine ⟨List.nodup_cons.mpr ⟨fun hat => ?_, hnd⟩, ?_⟩
        · have := hdisj a hat
          simp at this
        · intro x hx
          rcases List.mem_cons.mp hx with rfl | hxt
          · exact ha
          · have := hdisj x hxt
            simp at this
            exact this.1
      · rintro ⟨hnd, hdisj⟩
        obtain ⟨hat, hndt⟩ := List.nodup_cons.mp hnd
        have h' := key.mpr ⟨hndt, fun x hxt => ?_⟩
        · simp only [List.length_append, List.length_cons, List.length_nil] at h' ⊢
          omega
        · simp only [List.mem_append, List.mem_singleton]
          push_neg
          refine ⟨hdisj x (List.mem_cons_of_mem _ hxt), fun hxa => ?_⟩
          exact hat (hxa ▸ hxt)

/-- Folding from the empty accumulator counts the distinct values, so `Unique`
holds exactly on duplicate-free lists. -/
theorem unique_iff_nodup {α : Type} [DecidableEq α] (l : List α) :
    Unique l = true ↔ l.Nodup := by
  unfold Unique
  rw [beq_iff_eq]
  constructor
  · intro h
    exact ((length_foldl_insertKey_eq_iff l []).mp (by simpa using h.symm)).1
  · intro h
    have := (length_foldl_insertKey_eq_iff l []).mpr ⟨h, by simp⟩
    simpa using this.symm

end validator

/-- Appending a fresh key to an error map makes it the key's binding. -/
theorem lookupKey_append_of_none (k m : String) (l : List (String × String))
    (h : lookupKey k l = none) : lookupKey k (l ++ [(k, m)]) = some m := by
  induction l with
  | nil => simp [lookupKey]
  | cons p t ih =>
    obtain ⟨k', v'⟩ := p
    by_cases hk : k' = k
    · simp [lookupKey, hk] at h
    · simp only [lookupKey, List.cons_append, if_neg hk] at h ⊢
      exact ih h

/-- An error map with a bound key is not empty. -/
theorem lookupKey_some_ne_nil {k m : String} {l : List (String × String)}
    (h : lookupKey k l = some m) : l ≠ [] := by
  intro hnil
  subst hnil
  simp [lookupKey] at h

/-- C9: `PermittedValue(value, permittedValues...)` returns true iff the value
occurs among the permitted values, and `Unique(values)` returns true iff no
element of the list occurs more than once; in particular
`PermittedValue(2, 1, 3, 4)` is false, `PermittedValue(1, 1, 3, 4)` is true,
`Unique([1,1,2])` is false and `Unique([1,2,3])` is true. -/
theorem PermittedValue_Unique_spec :
    (∀ (α : Type) [DecidableEq α] (value : α) (l : List α),
        validator.PermittedValue value l = true ↔ value ∈ l) ∧
    (∀ (α : Type) [DecidableEq α] (l : List α),
        validator.Unique l = true ↔ l.Nodup) ∧
    validator.PermittedValue 2 [1, 3, 4] = false ∧
    validator.PermittedValue 1 [1, 3, 4] = true ∧
    validator.Unique [1, 1, 2] = false ∧
    validator.Unique [1, 2, 3] = true := by
  refine ⟨fun α _ value l => validator.permittedValue_iff value l,
    fun α _ l => validator.unique_iff_nodup l, ?_, ?_, ?_, ?_⟩ <;> decide

/-- C6: `Check(false, key, message)` records the message under the key only
when the key has no recorded message yet (a later `Check` or `AddError` for
the same key is a no-op, so the first write wins), any `Check(false, ...)`
leaves the validator invalid, and `Check(true, ...)` changes nothing. -/
theorem Validator_check_first_write_wins :
    (∀ (v : validator.Validator) (key message : String),
        lookupKey key v.Errors = none →
          lookupKey key ((v.Check false key message).Errors) = some message) ∧
    (∀ (v : validator.Validator) (key message m0 : String),
        lookupKey key v.Errors = some m0 → v.Check false key message = v) ∧
    (∀ (v : validator.Validator) (key message m0 : String),
        lookupKey key v.Errors = some m0 → v.AddError key message = v) ∧
    (∀ (v : validator.Validator) (key message : String),
        (v.Check false key message).Valid = false) ∧
    (∀ (v : validator.Validator) (key message : String), v.Check true key message = v) := by
  refine ⟨?_, ?_, ?_, ?_, ?_⟩
  · intro v key message h
    simp only [validator.Validator.Check, Bool.false_eq_true, if_false,
      validator.Validator.AddError, h]
    exact lookupKey_append_of_none key message v.Errors h
  · intro v key message m0 h
    simp [validator.Validator.Check, validator.Validator.AddError, h]
  · intro v key message m0 h
    simp [validator.Validator.AddError, h]
  · intro v key message
    simp only [validator.Validator.Check, Bool.false_eq_true, if_false,
      validator.Validator.AddError]
    cases h : lookupKey key v.Errors with
    | some m0 =>
      simp [validator.Validator.Valid, List.isEmpty_iff, lookupKey_some_ne_nil h]
    | none =>
      simp [validator.Validator.Valid, List.isEmpty_iff]
  · intro v key message
    simp [validator.Validator.Check]

/-- C6 witness: the spec's example run, concluded through the theorem: after
`Check(false, "field1", "cannot be empty")` a second
`Check(false, "field1", "other")` leaves `field1` bound to the first message
and the validator invalid. -/
theorem Validator_check_first_write_wins_witness :
    lookupKey "field1"
        (((validator.Validator.New.Check false "field1" "cannot be empty").Check false
            "field1" "other").Errors) = some "cannot be empty" ∧
    ((validator.Validator.New.Check false "field1" "cannot be empty").Check false
        "field1" "other").Valid = false := by
  have hfirst := Validator_check_first_write_wins.1 validator.Validator.New
    "field1" "cannot be empty" (by decide)
  have hnoop := Validator_check_first_write_wins.2.1
    (validator.Validator.New.Check false "field1" "cannot be empty") "field1" "other"
    "cannot be empty" hfirst
  have hvalid := Validator_check_first_write_wins.2.2.2.1
    (validator.Validator.New.Check false "field1" "cannot be empty") "field1" "other"
  exact ⟨by rw [hnoop]; exact hfirst, hvalid⟩

/-- Looking up a key in a concatenation tries the left part first. -/
theorem lookupKey_append (k : String) (l1 l2 : List (String × String)) :
    lookupKey k (l1 ++ l2)
      = match lookupKey k l1 with
        | some v => some v
        | none => lookupKey k l2 := by
  induction l1 with
  | nil => simp [lookupKey]
  | cons p t ih =>
    obtain ⟨k', v'⟩ := p
    by_cases hk : k' = k
    · simp [lookupKey, hk]
    · simp only [lookupKey, List.cons_append, if_neg hk]
      exact ih

/-- Filtering out a key's entries makes it unfindable. -/
theorem lookupKey_filter_self (k : String) (l : List (String × String)) :
    lookupKey k (l.filter (fun p => decide (p.1 ≠ k))) = none := by
  induction l with
  | nil => simp [lookupKey]
  | cons p t ih =>
    obtain ⟨k', v'⟩ := p
    rw [List.filter_cons]
    by_cases hk : k' = k
    · rw [if_neg (by simp [hk])]
      exact ih
    · rw [if_pos (by simpa using hk)]
      simpa [lookupKey, hk] using ih

/-- Filtering out a different key's entries leaves a lookup unchanged. -/
theorem lookupKey_filter_ne {k k' : String} (h : k' ≠ k) (l : List (String × String)) :
    lookupKey k (l.filter (fun p => decide (p.1 ≠ k'))) = lookupKey k l := by
  induction l with
  | nil => simp
  | cons p t ih =>
    obtain ⟨a, b⟩ := p
    rw [List.filter_cons]
    by_cases hak' : a = k'
    · subst hak'
      rw [if_neg (by simp)]
      rw [ih, lookupKey, if_neg h]
    · rw [if_pos (by simpa using hak')]
      by_cases hak : a = k
      · simp [lookupKey, hak]
      · simp only [lookupKey, if_neg hak]
        exact ih

/-- Setting a header binds that key. -/
theorem lookupKey_setHeader_self (hs : List (String × String)) (k v : String) :
    lookupKey k (setHeader hs k v) = some v := by
  unfold setHeader
  rw [lookupKey_append, lookupKey_filter_self]
  simp [lookupKey]

/-- Setting one header leaves lookups of other keys unchanged. -/
theorem lookupKey_setHeader_ne (hs : List (String × String)) {k k' : String} (v : String)
    (h : k' ≠ k) : lookupKey k (setHeader hs k' v) = lookupKey k hs := by
  unfold setHeader
  rw [lookupKey_append, lookupKey_filter_ne h]
  cases hl : lookupKey k hs with
  | some w => rfl
  | none => simp only [lookupKey, if_neg h]

/-- Applying a batch of header assignments realizes last-write-wins map
semantics on top of the initial header map. -/
theorem lookupKey_applyHeaders (k : String) (hs : List (String × String))
    (init : List (String × String)) :
    lookupKey k (applyHeaders init hs)
      = match lastValue k hs with
        | some v => some v
        | none => lookupKey k init := by
  induction hs generalizing init with
  | nil => simp [applyHeaders, lastValue]
  | cons p t ih =>
    obtain ⟨k', v'⟩ := p
    simp only [applyHeaders, List.foldl_cons] at ih ⊢
    rw [ih (setHeader init k' v')]
    cases hlv : lastValue k t with
    | some v => simp [lastValue, hlv]
    | none =>
      simp only [lastValue, hlv]
      by_cases hk : k' = k
      · subst hk
        rw [lookupKey_setHeader_self]
        simp
      · rw [lookupKey_setHeader_ne _ _ hk]
        simp [hk]

/-- C5: `WriteJSON` writes the requested status, writes the JSON serialization
of the envelope followed by exactly one trailing newline, applies every
caller-supplied header pair (with Go map last-write-wins semantics), and
always sets `Content-Type: application/json`, which caller-supplied headers
cannot override. -/
theorem WriteJSON_contract :
    ∀ (status : Nat) (env : Envelope) (headers : List (String × String)),
      (WriteJSON status env headers).status = status ∧
      (WriteJSON status env headers).body = render (JsonValue.obj env) ++ "\n" ∧
      getHeader (WriteJSON status env headers) "Content-Type" = some "application/json" ∧
      ∀ k v, k ≠ "Content-Type" → lastValue k headers = some v →
        getHeader (WriteJSON status env headers) k = some v := by
  intro status env headers
  refine ⟨rfl, rfl, ?_, ?_⟩
  · unfold getHeader WriteJSON WriteJSONWith
    exact lookupKey_setHeader_self _ _ _
  · intro k v hk hlast
    unfold getHeader WriteJSON WriteJSONWith
    rw [lookupKey_setHeader_ne _ _ (fun hh => hk hh.symm), lookupKey_applyHeaders, hlast]

/-- C5 witness: the spec's example call, concluded through the theorem:
`write(200, envelope data success, X-Custom-Header value1)` yields status 200,
the expected body with one trailing newline, `Content-Type: application/json`
and the custom header. -/
theorem WriteJSON_contract_witness :
    (WriteJSON 200 [("data", JsonValue.str "success")] [("X-Custom-Header", "value1")]).status
      = 200 ∧
    (WriteJSON 200 [("data", JsonValue.str "success")] [("X-Custom-Header", "value1")]).body
      = "\x7b\"data\":\"success\"\x7d\n" ∧
    getHeader (WriteJSON 200 [("data", JsonValue.str "success")] [("X-Custom-Header", "value1")])
      "Content-Type" = some "application/json" ∧
    getHeader (WriteJSON 200 [("data", JsonValue.str "success")] [("X-Custom-Header", "value1")])
      "X-Custom-Header" = some "value1" := by
  obtain ⟨h1, h2, h3, h4⟩ := WriteJSON_contract 200 [("data", JsonValue.str "success")]
    [("X-Custom-Header", "value1")]
  refine ⟨h1, ?_, h3, h4 "X-Custom-Header" "value1" (by decide) (by decide)⟩
  rw [h2]
  decide


/-- C7: every function of the error catalog in src/errors/errors.go writes a
body that is a JSON object with exactly one top-level key `"error"` and writes
its fixed status code: 500 server error, 404 not found, 405 method not
allowed, 400 bad request, 422 failed validation, 409 edit conflict, 429 rate
limit exceeded, 401 invalid credentials / invalid auth token / authentication
required, 403 inactive account; the failed-validation payload is the
field-to-message mapping itself, not a string. -/
theorem error_catalog_statuses_and_envelope :
    (∀ e, ∃ r, ErrorsGo.ServerErrorResponse (some e) = some r ∧ r.status = 500 ∧
        isErrorEnvelope r) ∧
    (ErrorsGo.NotFoundResponse.status = 404 ∧ isErrorEnvelope ErrorsGo.NotFoundResponse) ∧
    (∀ m, (ErrorsGo.MethodNotAllowedResponse m).status = 405 ∧
        isErrorEnvelope (ErrorsGo.MethodNotAllowedResponse m)) ∧
    (∀ e, (ErrorsGo.BadRequestResponse e).status = 400 ∧
        isErrorEnvelope (ErrorsGo.BadRequestResponse e)) ∧
    (∀ errs, (ErrorsGo.FailedValidationResponse errs).status = 422 ∧
        (ErrorsGo.FailedValidationResponse errs).body
          = render (JsonValue.obj
              [("error", JsonValue.obj (errs.map (fun p => (p.1, JsonValue.str p.2))))]) ++ "\n") ∧
    (ErrorsGo.EditConflictResponse.status = 409 ∧ isErrorEnvelope ErrorsGo.EditConflictResponse) ∧
    (ErrorsGo.RateLimitExceededResponse.status = 429 ∧
        isErrorEnvelope ErrorsGo.RateLimitExceededResponse) ∧
    (ErrorsGo.InvalidCredentialsResponse.status = 401 ∧
        isErrorEnvelope ErrorsGo.InvalidCredentialsResponse) ∧
    (ErrorsGo.InvalidAuthenticationTokenResponse.status = 401 ∧
        isErrorEnvelope ErrorsGo.InvalidAuthenticationTokenResponse) ∧
    (ErrorsGo.AuthenticationRequiredResponse.status = 401 ∧
        isErrorEnvelope ErrorsGo.AuthenticationRequiredResponse) ∧
    (ErrorsGo.InactiveAccountResponse.status = 403 ∧
        isErrorEnvelope ErrorsGo.InactiveAccountResponse) := by
  refine ⟨fun e => ⟨_, rfl, rfl, _, rfl⟩, ⟨rfl, _, rfl⟩, fun m => ⟨rfl, _, rfl⟩,
    fun e => ⟨rfl, _, rfl⟩, fun errs => ⟨rfl, rfl⟩, ⟨rfl, _, rfl⟩, ⟨rfl, _, rfl⟩,
    ⟨rfl, _, rfl⟩, ⟨rfl, _, rfl⟩, ⟨rfl, _, rfl⟩, ⟨rfl, _, rfl⟩⟩

/-- Folding string concatenation from any seed prepends the seed. -/
theorem string_foldl_append (l : List String) (a : String) :
    List.foldl (fun r s => r ++ s) a l = a ++ List.foldl (fun r s => r ++ s) "" l := by
  induction l generalizing a with
  | nil => simp
  | cons b t ih =>
    simp only [List.foldl_cons]
    rw [ih (a ++ b), ih ("" ++ b), String.empty_append, String.append_assoc]

/-- Joining a concatenation of string lists concatenates the joins. -/
theorem string_join_append (l1 l2 : List String) :
    String.join (l1 ++ l2) = String.join l1 ++ String.join l2 := by
  induction l1 with
  | nil => simp [String.join]
  | cons s t ih =>
    simp only [String.join, List.cons_append, List.foldl_cons] at ih ⊢
    rw [string_foldl_append (t ++ l2) ("" ++ s), string_foldl_append t ("" ++ s), ih]
    simp [String.append_assoc]

/-- Escaping distributes over string concatenation. -/
theorem escJoin_append (a b : String) :
    String.join (((a ++ b).toList).map escapeChar)
      = String.join ((a.toList).map escapeChar) ++ String.join ((b.toList).map escapeChar) := by
  show String.join (((a ++ b).data).map escapeChar) = _
  rw [String.data_append, List.map_append, string_join_append]
  rfl

/-- Equal concatenations with equal-length left parts have equal left parts. -/
theorem string_append_left_inj {a b x y : String} (hl : a.length = b.length)
    (h : a ++ x = b ++ y) : a = b := by
  have hd : a.data ++ x.data = b.data ++ y.data := by
    rw [← String.data_append, ← String.data_append, h]
  exact String.ext (List.append_inj hd hl).1

/-- The errors.go method-not-allowed body as a concrete prefix, the escaped
method name, and a concrete suffix. -/
theorem mna_body_expand (m : String) :
    (ErrorsGo.MethodNotAllowedResponse m).body
      = "\x7b\"error\":\"The " ++ (String.join ((m.toList).map escapeChar)
          ++ " method is not supported for this resource\"\x7d\n") := by
  simp only [ErrorsGo.MethodNotAllowedResponse, ErrorsGo.ErrorResponse,
    ErrorsGo.ErrorResponseWith, WriteJSONWith, render, renderFields, quoteStr]
  rw [escJoin_append ("The " ++ m) " method is not supported for this resource",
    escJoin_append "The " m]
  simp only [String.append_assoc]
  rfl

/-- The part_001 method-not-allowed body in the same decomposed form. -/
theorem mna_body_expand_part001 (m : String) :
    (Part001.MethodNotAllowedResponse m).body
      = "\x7b\"error\":\"the " ++ (String.join ((m.toList).map escapeChar)
          ++ " method is not supported for this resource\"\x7d\n") := by
  simp only [Part001.MethodNotAllowedResponse, Part001.ErrorResponse, WriteJSONWith,
    render, renderFields, quoteStr]
  rw [escJoin_append ("the " ++ m) " method is not supported for this resource",
    escJoin_append "the " m]
  simp only [String.append_assoc]
  rfl

/-- The two method-not-allowed bodies differ for every method: their
equal-length prefixes disagree on the casing of `The`. -/
theorem mna_bodies_differ (m : String) :
    (ErrorsGo.MethodNotAllowedResponse m).body ≠ (Part001.MethodNotAllowedResponse m).body := by
  intro heq
  rw [mna_body_expand, mna_body_expand_part001] at heq
  exact absurd (string_append_left_inj (by decide) heq) (by decide)

/-- The errors.go server-error body as a concrete prefix, the escaped cause,
and a concrete suffix. -/
theorem server_body_expand (e : String) :
    (ErrorsGo.ErrorResponse 500 (JsonValue.str
        ("The server encountered a problem and could not process your request: " ++ e))).body
      = "\x7b\"error\":\"The server encountered a problem and could not process your request: "
          ++ (String.join ((e.toList).map escapeChar) ++ "\"\x7d\n") := by
  simp only [ErrorsGo.ErrorResponse, ErrorsGo.ErrorResponseWith, WriteJSONWith,
    render, renderFields, quoteStr]
  rw [escJoin_append "The server encountered a problem and could not process your request: " e]
  simp only [String.append_assoc]
  rfl

/-- The two server-error bodies differ for every cause string: errors.go
appends `: ` and the cause where part_001 closes the message, so the
equal-length prefixes already disagree. -/
theorem server_bodies_differ (e : String) :
    (ErrorsGo.ServerErrorResponse (some e)).map Response.body
      ≠ some (Part001.ServerErrorResponse (some e)).body := by
  intro heq
  have heq1 : (ErrorsGo.ErrorResponse 500 (JsonValue.str
      ("The server encountered a problem and could not process your request: " ++ e))).body
      = (Part001.ServerErrorResponse (some e)).body := by
    simpa [ErrorsGo.ServerErrorResponse] using heq
  rw [server_body_expand] at heq1
  have heq2 : "\x7b\"error\":\"The server encountered a problem and could not process your request: "
      ++ (String.join ((e.toList).map escapeChar) ++ "\"\x7d\n")
      = "\x7b\"error\":\"The server encountered a problem and could not process your request\"\x7d"
        ++ "\n" := by
    rw [heq1]
    rfl
  exact absurd (string_append_left_inj (by decide) heq2) (by decide)

/-- C8 counterexample: the two catalogs are not observationally equivalent:
`NotFoundResponse` writes different bodies in src/errors/errors.go and in
src/unnamed/part_001 (the message casing differs). -/
theorem error_catalogs_not_equivalent :
    ErrorsGo.NotFoundResponse.body ≠ Part001.NotFoundResponse.body := by
  decide

/-- C8 amended: the two catalogs agree on every status code (and on the
`WWW-Authenticate` challenge header), and the same-named functions write
identical bodies only for `ErrorResponse`, `BadRequestResponse` and
`FailedValidationResponse`; every other same-named function writes different
bodies: the fixed message text differs in casing, and `ServerErrorResponse`
in src/errors/errors.go appends the underlying cause while src/unnamed/part_001
does not. -/
theorem error_catalogs_statuses_agree_bodies_differ :
    (∀ e, (ErrorsGo.ServerErrorResponse (some e)).map Response.status
        = some (Part001.ServerErrorResponse (some e)).status) ∧
    ErrorsGo.NotFoundResponse.status = Part001.NotFoundResponse.status ∧
    (∀ m, (ErrorsGo.MethodNotAllowedResponse m).status
        = (Part001.MethodNotAllowedResponse m).status) ∧
    (∀ e, ErrorsGo.BadRequestResponse e = Part001.BadRequestResponse e) ∧
    (∀ errs, ErrorsGo.FailedValidationResponse errs = Part001.FailedValidationResponse errs) ∧
    (∀ s m, ErrorsGo.ErrorResponse s m = Part001.ErrorResponse s m) ∧
    ErrorsGo.EditConflictResponse.status = Part001.EditConflictResponse.status ∧
    ErrorsGo.RateLimitExceededResponse.status = Part001.RateLimitExceededResponse.status ∧
    ErrorsGo.InvalidCredentialsResponse.status = Part001.InvalidCredentialsResponse.status ∧
    ErrorsGo.InvalidAuthenticationTokenResponse.status
      = Part001.InvalidAuthenticationTokenResponse.status ∧
    getHeader ErrorsGo.InvalidAuthenticationTokenResponse "WWW-Authenticate"
      = getHeader Part001.InvalidAuthenticationTokenResponse "WWW-Authenticate" ∧
    ErrorsGo.AuthenticationRequiredResponse.status
      = Part001.AuthenticationRequiredResponse.status ∧
    ErrorsGo.InactiveAccountResponse.status = Part001.InactiveAccountResponse.status ∧
    (∀ e, (ErrorsGo.ServerErrorResponse (some e)).map Response.body
        ≠ some (Part001.ServerErrorResponse (some e)).body) ∧
    ErrorsGo.NotFoundResponse.body ≠ Part001.NotFoundResponse.body ∧
    (∀ m, (ErrorsGo.MethodNotAllowedResponse m).body
        ≠ (Part001.MethodNotAllowedResponse m).body) ∧
    ErrorsGo.EditConflictResponse.body ≠ Part001.EditConflictResponse.body ∧
    ErrorsGo.RateLimitExceededResponse.body ≠ Part001.RateLimitExceededResponse.body ∧
    ErrorsGo.InvalidCredentialsResponse.body ≠ Part001.InvalidCredentialsResponse.body ∧
    ErrorsGo.InvalidAuthenticationTokenResponse.body
      ≠ Part001.InvalidAuthenticationTokenResponse.body ∧
    ErrorsGo.AuthenticationRequiredResponse.body ≠ Part001.AuthenticationRequiredResponse.body ∧
    ErrorsGo.InactiveAccountResponse.body ≠ Part001.InactiveAccountResponse.body := by
  refine ⟨fun e => rfl, rfl, fun m => rfl, fun e => rfl, fun errs => rfl, fun s m => rfl,
    rfl, rfl, rfl, rfl, rfl, rfl, rfl, server_bodies_differ, ?_, mna_bodies_differ,
    ?_, ?_, ?_, ?_, ?_, ?_⟩ <;> decide

/-- C10: `ServerErrorResponse` in src/errors/errors.go calls `err.Error()`
unconditionally, so a `nil` error panics (modelled by the `none` result)
instead of writing a response, while every non-nil error produces a 500
response carrying the fixed text with the cause appended. -/
theorem ServerErrorResponse_nil_panics :
    ErrorsGo.ServerErrorResponse none = none ∧
    ∀ e, ∃ r, ErrorsGo.ServerErrorResponse (some e) = some r ∧ r.status = 500 ∧
      r.body = render (JsonValue.obj [("error", JsonValue.str
        ("The server encountered a problem and could not process your request: " ++ e))]) ++ "\n" := by
  exact ⟨rfl, fun e => ⟨_, rfl, rfl, rfl⟩⟩

/-- C2: `ReadJSON` on an empty body (zero bytes, immediate end of stream)
returns exactly the message `body must not be empty`, whatever the
destination schema, and no other classification message. -/
theorem ReadJSON_empty_body :
    ∀ schema, ReadJSON schema [] = Except.error "body must not be empty" :=
  fun _ => rfl

/-- C1: when the body's single JSON object strictly decodes against the
destination schema with a first violation that is an unknown key `k`,
`ReadJSON` returns exactly the message `body contains unknown key "k"`,
naming the offending key. -/
theorem ReadJSON_unknown_key :
    ∀ (schema : List (String × JsonType)) (body : List Char)
      (fields : List (String × JsonValue)) (rest : List Char) (pos : Nat) (k : String),
      body.length ≤ MaxBytes →
      parseTop body = TopRes.ok (JsonValue.obj fields) rest pos →
      firstViolation schema fields = some (Violation.unknownKey k) →
      ReadJSON schema body = Except.error ("body contains unknown key \"" ++ k ++ "\"") := by
  intro schema body fields rest pos k hlen hparse hviol
  unfold ReadJSON ReadJSONLimit
  rw [List.take_of_length_le hlen, hparse]
  simp [checkDecode, hviol, violationMsg]

/-- C1 witness: the spec's example, concluded through the theorem: the body
`oddKey to oddValue` against a destination with only a `data` field fails with
the message naming `oddKey`. -/
theorem ReadJSON_unknown_key_witness :
    ReadJSON [("data", JsonType.str)] ("\x7b\"oddKey\":\"oddValue\"\x7d".toList)
      = Except.error "body contains unknown key \"oddKey\"" := by
  have h := ReadJSON_unknown_key [("data", JsonType.str)]
    ("\x7b\"oddKey\":\"oddValue\"\x7d".toList) [("oddKey", JsonValue.str "oddValue")] [] 21
    "oddKey" (by decide) (by rfl) (by rfl)
  rw [h]
  rfl


/-- C3: `ReadJSON` succeeds exactly when the stream (within the byte limit)
holds one well-formed JSON value that strictly decodes into the destination
and is followed by pure end of stream; when such a first value is followed by
anything else, the call fails with exactly the message
`body must only contain a single JSON value`. -/
theorem ReadJSON_single_value_only :
    (∀ (schema : List (String × JsonType)) (body : List Char),
        ReadJSON schema body = Except.ok () ↔
          ∃ v rest pos, parseTop (body.take MaxBytes) = TopRes.ok v rest pos ∧
            checkDecode schema v pos = none ∧ (skipWs rest pos).1 = [] ∧
            body.length ≤ MaxBytes) ∧
    (∀ (schema : List (String × JsonType)) (body : List Char) (v : JsonValue)
        (rest : List Char) (pos : Nat),
        parseTop (body.take MaxBytes) = TopRes.ok v rest pos →
        checkDecode schema v pos = none →
        ((skipWs rest pos).1 ≠ [] ∨ MaxBytes < body.length) →
        ReadJSON schema body = Except.error "body must only contain a single JSON value") := by
  constructor
  · intro schema body
    unfold ReadJSON ReadJSONLimit
    cases hp : parseTop (body.take MaxBytes) with
    | eofEmpty => by_cases hb : body.length ≤ MaxBytes <;> simp [hb]
    | eofMid => by_cases hb : body.length ≤ MaxBytes <;> simp [hb]
    | fail off => simp
    | ok v rest pos =>
      cases hc : checkDecode schema v pos with
      | some msg => simp [hc]
      | none =>
        by_cases hcond : (skipWs rest pos).1 = [] ∧ body.length ≤ MaxBytes
        · simp [hc, hcond.1, hcond.2]
          exact ⟨v, rest, pos, ⟨rfl, rfl, rfl⟩, hc, hcond.1⟩
        · constructor
          · intro h
            simp [hc, hcond] at h
          · rintro ⟨v', r', p', hok, -, hrest, hlen⟩
            injection hok with h1 h2 h3
            subst h2
            subst h3
            exact absurd ⟨hrest, hlen⟩ hcond
  · intro schema body v rest pos hp hc hbad
    unfold ReadJSON ReadJSONLimit
    rw [hp]
    simp only [hc]
    rw [if_neg]
    rintro ⟨h1, h2⟩
    rcases hbad with h3 | h3
    · exact h3 h1
    · omega

/-- C3 witness: the spec's example, concluded through the theorem: the body
consisting of the two values `a:1` and `b:2` fails with exactly the
single-value message even though the first value decodes cleanly. -/
theorem ReadJSON_single_value_only_witness :
    ReadJSON [("a", JsonType.num)] ("\x7b\"a\":1\x7d\x7b\"b\":2\x7d".toList)
      = Except.error "body must only contain a single JSON value" :=
  ReadJSON_single_value_only.2 [("a", JsonType.num)] ("\x7b\"a\":1\x7d\x7b\"b\":2\x7d".toList)
    (JsonValue.obj [("a", JsonValue.num 1)]) ("\x7b\"b\":2\x7d".toList) 7
    (by rfl) (by rfl) (Or.inl (by decide))

/-- Skipping whitespace consumes a run of spaces entirely. -/
theorem skipWs_replicate_space (n : Nat) (pos : Nat) :
    skipWs (List.replicate n ' ') pos = ([], pos + n) := by
  induction n generalizing pos with
  | zero => simp [skipWs]
  | succ m ih =>
    rw [List.replicate_succ]
    show skipWs (' ' :: List.replicate m ' ') pos = ([], pos + (m + 1))
    rw [skipWs, if_pos (by rfl)]
    rw [ih (pos + 1)]
    congr 1
    omega

/-- A body that is an opening brace followed by only spaces parses to an
unexpected end of input mid-value. -/
theorem parseTop_obj_spaces (n : Nat) :
    parseTop ('\x7b' :: List.replicate n ' ') = TopRes.eofMid := by
  have hws : isWs '\x7b' = false := rfl
  unfold parseTop
  rw [skipWs, if_neg (by rw [hws]; exact Bool.false_ne_true)]
  simp only [parseGo, skipWs, hws, Bool.false_eq_true, if_false,
    skipWs_replicate_space]
  rfl

/-- A body whose first character is the letter `a` is a syntax error at
character 1. -/
theorem parseTop_a_cons (l : List Char) : parseTop ('a' :: l) = TopRes.fail 1 := by
  have hws : isWs 'a' = false := rfl
  unfold parseTop
  rw [skipWs, if_neg (by rw [hws]; exact Bool.false_ne_true)]
  simp only [parseGo, skipWs, hws, Bool.false_eq_true, if_false]
  rfl

/-- Classification of a syntax error is independent of the body size: a
symbolic evaluation lemma for `ReadJSONLimit`. -/
theorem ReadJSONLimit_fail (schema : List (String × JsonType)) (limit : Nat) (body : List Char)
    (off : Nat) (hp : parseTop (body.take limit) = TopRes.fail off) :
    ReadJSONLimit schema limit body
      = Except.error ("body contains badly-formed JSON (at character " ++ toString off ++ ")") := by
  unfold ReadJSONLimit
  rw [hp]

/-- C4 counterexample: a body of 1,048,577 letters `a` exceeds the default
byte limit, yet `ReadJSON` reports the syntax error found at the first
character, not the oversized-body message: the decoder fails before it ever
reads up to the limit. -/
theorem ReadJSON_oversized_counterexample :
    ReadJSON [("data", JsonType.str)] (List.replicate 1048577 'a')
      = Except.error "body contains badly-formed JSON (at character 1)" := by
  have hvis : (List.replicate 1048577 'a').take MaxBytes = 'a' :: List.replicate 1048575 'a' := by
    rw [List.take_replicate]
    rw [show min MaxBytes 1048577 = 1048576 from by norm_num [MaxBytes]]
    rw [show (1048576 : Nat) = 1048575 + 1 from by norm_num, List.replicate_succ]
  have hp : parseTop ((List.replicate 1048577 'a').take MaxBytes) = TopRes.fail 1 := by
    rw [hvis]
    exact parseTop_a_cons _
  have h := ReadJSONLimit_fail [("data", JsonType.str)] MaxBytes (List.replicate 1048577 'a') 1 hp
  exact h.trans (by rfl)

/-- C4 amended: when the body exceeds the 1,048,576-byte default limit and the
decode of the first JSON value is still incomplete once the limit cuts the
stream, `ReadJSON` fails with exactly the message
`body must not be larger than 1048576 bytes`. -/
theorem ReadJSON_oversized_incomplete :
    ∀ (schema : List (String × JsonType)) (body : List Char),
      MaxBytes < body.length →
      incompleteParse (parseTop (body.take MaxBytes)) = true →
      ReadJSON schema body = Except.error "body must not be larger than 1048576 bytes" := by
  intro schema body hlen hinc
  unfold ReadJSON ReadJSONLimit
  cases hp : parseTop (body.take MaxBytes) with
  | eofEmpty =>
    show (if body.length ≤ MaxBytes then Except.error "body must not be empty"
        else Except.error (tooLargeMsg MaxBytes)) = _
    rw [if_neg (by omega)]
    rfl
  | eofMid =>
    show (if body.length ≤ MaxBytes then Except.error "body contains badly-formed JSON"
        else Except.error (tooLargeMsg MaxBytes)) = _
    rw [if_neg (by omega)]
    rfl
  | fail off =>
    rw [hp] at hinc
    simp [incompleteParse] at hinc
  | ok v rest pos =>
    rw [hp] at hinc
    simp [incompleteParse] at hinc

/-- C4 amended witness: an opening brace followed by 1,048,576 spaces is an
oversized body whose first value never completes within the limit; the
theorem applies and yields the oversized-body message. -/
theorem ReadJSON_oversized_incomplete_witness :
    ReadJSON [("data", JsonType.str)] ('\x7b' :: List.replicate MaxBytes ' ')
      = Except.error "body must not be larger than 1048576 bytes" := by
  have htake : ('\x7b' :: List.replicate MaxBytes ' ').take MaxBytes
      = '\x7b' :: List.replicate 1048575 ' ' := by
    rw [show MaxBytes = 1048575 + 1 from by norm_num [MaxBytes]]
    rw [List.take_succ_cons, List.take_replicate]
    norm_num
  have hlen : MaxBytes < ('\x7b' :: List.replicate MaxBytes ' ').length := by
    rw [List.length_cons, List.length_replicate]
    exact Nat.lt_succ_self _
  exact ReadJSON_oversized_incomplete [("data", JsonType.str)] _ hlen
    (by rw [htake, parseTop_obj_spaces]; rfl)
